import Mathlib

/-!
Verification of the flow-control, framing and delivery core of the brpc
streaming layer (src/brpc/stream.cpp), as a shallow embedding in Lean.

Counters `_produced`, `_remote_consumed`, `_cur_buf_size`, `_local_consumed`
are C++ `size_t` (64-bit unsigned).  They are modelled as `Nat` holding the
exact mathematical value; the one operation that can genuinely wrap around
in the source, the unconditional `_produced -= data_length` rollback in
`Stream::AppendIfNotFull`, is modelled with explicit 64-bit wraparound
(`wsub`).  `_total_streams_unconsumed_size` (a 64-bit signed counter on the
host socket) and the option fields `min_buf_size`, `max_buf_size` (C++ int)
are modelled as `Int`.
-/

namespace BrpcStream

/-- Word size of `size_t` on the target platform (64 bits). -/
def W : Nat := 2 ^ 64

/-- C++ `size_t` subtraction `a - b` for stored values `a, b < W`: wraps
modulo `2^64` when `b > a`, exact otherwise. -/
def wsub (a b : Nat) : Nat := if b ≤ a then a - b else a + W - b

/-- The fields of `StreamOptions` the flow controller reads:
`min_buf_size` and `max_buf_size` are C++ `int`. -/
structure StreamOptions where
  minBufSize : Int
  maxBufSize : Int
  deriving DecidableEq, Repr

/-- Flow-control state of one stream together with the aggregate
`_total_streams_unconsumed_size` counter of its host socket and the
writable-wait list (`_writable_wait_list`, as a list of token ids). -/
structure FCState where
  produced : Nat
  remoteConsumed : Nat
  curBufSize : Nat
  totalUnconsumed : Int
  waitList : List Nat
  deriving DecidableEq, Repr

/-- `Stream::AppendIfNotFull` (stream.cpp:318-352).  `flag` is the gflag
`FLAGS_socket_max_streams_unconsumed_bytes`; `len` is `data.length()`; `ok`
abstracts the outcome of `_fake_socket_weak_ref->Write` (`rc == 0`).  The
returned `Int` is the C return value: 0 admitted and written, 1 full,
-1 transport-write failure.  Note that the source increments `_produced`
only under `_cur_buf_size > 0` but performs the rollback `_produced -=
data_length` unconditionally on write failure. -/
def appendIfNotFull (flag : Int) (len : Nat) (ok : Bool) (st : FCState) :
    Int × FCState :=
  if 0 < st.curBufSize then
    if st.remoteConsumed + st.curBufSize ≤ st.produced then
      (1, st)
    else
      let st1 := { st with produced := st.produced + len }
      if ok then
        (0, if 0 < flag then
              { st1 with totalUnconsumed := st1.totalUnconsumed + (len : Int) }
            else st1)
      else
        (-1, { st1 with produced := wsub st1.produced len })
  else
    if ok then
      (0, if 0 < flag then
            { st with totalUnconsumed := st.totalUnconsumed + (len : Int) }
          else st)
    else
      (-1, { st with produced := wsub st.produced len })

/-- `Stream::SetRemoteConsumed` (stream.cpp:354-393).  Returns the new state
together with the list of wait tokens handed to `bthread_id_list_reset(_, 0)`,
i.e. the waiters woken with error code 0. -/
def setRemoteConsumed (flag : Int) (opts : StreamOptions) (st : FCState)
    (v : Nat) : FCState × List Nat :=
  if v ≤ st.remoteConsumed then (st, [])
  else
    let wasFull : Bool := st.remoteConsumed + st.curBufSize ≤ st.produced
    let st1 :=
      if 0 < flag then
        let total := st.totalUnconsumed - ((v : Int) - (st.remoteConsumed : Int))
        let cur :=
          if flag < total then
            if 0 < opts.minBufSize then opts.minBufSize.toNat
            else st.curBufSize / 2
          else if v + st.curBufSize ≤ st.produced ∧
              (opts.maxBufSize ≤ 0 ∨ st.curBufSize < opts.maxBufSize.toNat) then
            if 0 < opts.maxBufSize ∧ opts.maxBufSize.toNat < st.curBufSize * 2 then
              opts.maxBufSize.toNat
            else
              st.curBufSize * 2
          else st.curBufSize
        { st with totalUnconsumed := total, curBufSize := cur }
      else st
    let st2 := { st1 with remoteConsumed := v }
    let isFull : Bool := st2.remoteConsumed + st2.curBufSize ≤ st2.produced
    if wasFull && !isFull then ({ st2 with waitList := [] }, st2.waitList)
    else (st2, [])

/-- Value of `_options.min_buf_size` after `Stream::Create` (stream.cpp:88-92):
silently reset to 0 when `max_buf_size > 0` and `min_buf_size > max_buf_size`. -/
def createdMinBufSize (opts : StreamOptions) : Int :=
  if 0 < opts.maxBufSize ∧ opts.maxBufSize < opts.minBufSize then 0
  else opts.minBufSize

/-- The options actually stored on the stream by `Stream::Create`. -/
def createdOptions (opts : StreamOptions) : StreamOptions :=
  { opts with minBufSize := createdMinBufSize opts }

/-- `_cur_buf_size` set by `Stream::Create` (stream.cpp:87-95). -/
def initCurBufSize (flag : Int) (opts : StreamOptions) : Nat :=
  let cur0 := if 0 < opts.maxBufSize then opts.maxBufSize.toNat else 0
  if 0 < flag ∧ 0 < createdMinBufSize opts then (createdMinBufSize opts).toNat
  else cur0

/-- Flow-control state of a freshly created stream whose host socket's
aggregate unconsumed counter currently reads `total0`. -/
def createFCState (flag : Int) (opts : StreamOptions) (total0 : Int) : FCState :=
  { produced := 0
    remoteConsumed := 0
    curBufSize := initCurBufSize flag opts
    totalUnconsumed := total0
    waitList := [] }

/-- An interleaved operation on the congestion-controlled state: a `Write`
(through `Stream::AppendIfNotFull`) or a FEEDBACK frame
(`Stream::SetRemoteConsumed`). -/
inductive FCOp where
  | write (len : Nat) (ok : Bool)
  | feedback (v : Nat)
  deriving DecidableEq, Repr

/-- Whether an operation is a feedback (SetRemoteConsumed) call. -/
def FCOp.isFeedback : FCOp → Bool
  | .write _ _ => false
  | .feedback _ => true

/-- One step of the interleaving semantics. -/
def stepFC (flag : Int) (opts : StreamOptions) (st : FCState) : FCOp → FCState
  | .write len ok => (appendIfNotFull flag len ok st).2
  | .feedback v => (setRemoteConsumed flag opts st v).1

/-- Run a sequence of interleaved operations. -/
def runFC (flag : Int) (opts : StreamOptions) (st : FCState)
    (ops : List FCOp) : FCState :=
  ops.foldl (stepFC flag opts) st

/-- Linux errno values surfaced by the public stream API. -/
def EAGAIN : Int := 11

/-- errno EINVAL. -/
def EINVAL : Int := 22

/-- errno ECONNRESET. -/
def ECONNRESET : Int := 104

/-- `StreamWrite` (stream.cpp:760-772).  `resolved` is the outcome of
`Socket::Address` on the stream id (the flow-control state of the resolved
stream, or `none`); `errnoVal` abstracts the value of `errno` after a failed
transport write. -/
def streamWrite (resolved : Option FCState) (flag : Int) (len : Nat)
    (ok : Bool) (errnoVal : Int) : Int :=
  match resolved with
  | none => EINVAL
  | some st =>
    let rc := (appendIfNotFull flag len ok st).1
    if rc = 0 then 0 else if rc = 1 then EAGAIN else errnoVal

/-- One on-wire DATA frame: its payload bytes and has_continuation flag. -/
structure Frame where
  payload : List Nat
  hasContinuation : Bool
  deriving DecidableEq, Repr

/-- The `cutn` loop of `Stream::CutMessageIntoFileDescriptor`
(stream.cpp:176-191) for one buffer longer than the segment limit `m`:
repeatedly cut an `m`-byte piece; the frame for each piece carries
`has_continuation = !data->empty()` after the cut, so every frame but the
last carries true.  `fuel ≥ data.length` makes the recursion total; it is
always called that way, and the source loop terminates because the gflag
`stream_write_max_segment_size` is validated strictly positive. -/
def cutLoop (m : Nat) : Nat → List Nat → List Frame
  | 0, data => [⟨data, false⟩]
  | fuel + 1, data =>
    let seg := data.take m
    let rest := data.drop m
    if rest.isEmpty then [⟨seg, false⟩]
    else ⟨seg, true⟩ :: cutLoop m fuel rest

/-- Frame sequence produced by `Stream::CutMessageIntoFileDescriptor`
(stream.cpp:147-214) for an ordered list of payload buffers under segment
limit `m = FLAGS_stream_write_max_segment_size`: a buffer of length ≤ `m`
becomes a single frame with `has_continuation=false`; a longer buffer goes
through the segmentation loop.  (The accumulation of consecutive small
frames into one host-socket write groups frames into transport writes but
does not change the frame sequence.) -/
def cutMessage (m : Nat) (bufs : List (List Nat)) : List Frame :=
  bufs.flatMap fun data =>
    if m < data.length then cutLoop m data.length data
    else [⟨data, false⟩]

/-- DATA-frame handling of `Stream::OnReceived` (stream.cpp:502-519): append
the payload to the pending reassembly buffer (`_pending_buf`); when
`has_continuation` is false, detach the buffer and deliver it to the
consumer queue.  Returns the new pending buffer and the delivered
messages. -/
def onDataFrame (pending : Option (List Nat)) (f : Frame) :
    Option (List Nat) × List (List Nat) :=
  let buf := match pending with
    | some p => p ++ f.payload
    | none => f.payload
  if f.hasContinuation then (some buf, [])
  else (none, [buf])

/-- Receive a sequence of DATA frames one `OnReceived` call at a time,
accumulating the delivered messages in order. -/
def receiveFrames : Option (List Nat) → List Frame →
    Option (List Nat) × List (List Nat)
  | pending, [] => (pending, [])
  | pending, f :: fs =>
    let r := onDataFrame pending f
    let rest := receiveFrames r.1 fs
    (rest.1, r.2 ++ rest.2)

/-- A task on the per-stream execution queue: a reassembled message or the
idle-timeout sentinel (`TIMEOUT_TASK`). -/
inductive QTask where
  | data (payload : List Nat)
  | timeout
  deriving DecidableEq, Repr

/-- Observable actions of one `Stream::Consume` run, in order: handler
batches, idle-timeout callback, the RPC-response hand-off, and FEEDBACK
frames written to the host socket. -/
inductive CEvent where
  | onReceived (msgs : List (List Nat))
  | onIdleTimeout
  | rpcResponse (payload : List Nat)
  | feedbackFrame (consumedSize : Nat)
  deriving DecidableEq, Repr

/-- The per-stream fields read and written by `Stream::Consume`:
`_local_consumed`, `_parse_rpc_response`, `_remote_settings.need_feedback()`,
`_options.handler != NULL` and `_options.messages_in_batch`. -/
structure ConsumeState where
  localConsumed : Nat
  parseRpcResponse : Bool
  needFeedback : Bool
  hasHandler : Bool
  messagesInBatch : Nat
  deriving DecidableEq, Repr

/-- Accumulator mirroring `MessageBatcher` plus the loop locals of
`Stream::Consume`. -/
structure BatchAcc where
  batch : List (List Nat)
  totalLength : Nat
  events : List CEvent
  parseRpc : Bool
  hasTimeout : Bool
  deriving DecidableEq, Repr

/-- `MessageBatcher::flush` (stream.cpp:547-556): hand the buffered messages
to the handler when nonempty, then clear the buffer (`_total_length` is not
reset). -/
def mbFlush (hasHandler : Bool) (acc : BatchAcc) : BatchAcc :=
  if acc.batch.isEmpty then acc
  else
    { acc with
      events := acc.events ++
        (if hasHandler then [CEvent.onReceived acc.batch] else [])
      batch := [] }

/-- `MessageBatcher::push` (stream.cpp:557-564): flush when the buffer is at
capacity, then store the message and add its length to `_total_length`. -/
def mbPush (hasHandler : Bool) (cap : Nat) (m : List Nat) (acc : BatchAcc) :
    BatchAcc :=
  let acc1 := if acc.batch.length = cap then mbFlush hasHandler acc else acc
  { acc1 with
    batch := acc1.batch ++ [m]
    totalLength := acc1.totalLength + m.length }

/-- The task loop body of `Stream::Consume` (stream.cpp:603-615): the
timeout sentinel sets `has_timeout_task`; the first data task on a
`parse_rpc_response` stream goes to `HandleRpcResponse` and clears the flag;
every other data task is pushed to the batcher. -/
def consumeStep (st : ConsumeState) (acc : BatchAcc) : QTask → BatchAcc
  | .timeout => { acc with hasTimeout := true }
  | .data m =>
    if acc.parseRpc then
      { acc with
        parseRpc := false
        events := acc.events ++ [CEvent.rpcResponse m] }
    else mbPush st.hasHandler st.messagesInBatch m acc

/-- The task loop of `Stream::Consume` (stream.cpp:600-615), starting from
an empty batcher. -/
def consumeLoop (st : ConsumeState) (tasks : List QTask) : BatchAcc :=
  tasks.foldl (consumeStep st) ⟨[], 0, [], st.parseRpcResponse, false⟩

/-- The idle check of `Stream::Consume` (stream.cpp:616-620): a run that
saw the timeout sentinel and delivered zero payload bytes fires
`on_idle_timeout` (before the final flush, when a handler is present). -/
def idleCheck (st : ConsumeState) (acc : BatchAcc) : BatchAcc :=
  if st.hasHandler && acc.hasTimeout && acc.totalLength == 0 then
    { acc with events := acc.events ++ [CEvent.onIdleTimeout] }
  else acc

/-- One non-stop run of `Stream::Consume` (stream.cpp:574-629) over the
tasks drained from the execution queue: batch and deliver messages, fire
`on_idle_timeout` for batches whose delivered byte total is zero and that
saw the sentinel, and, when `need_feedback` and the total is non-zero, add
the total to `_local_consumed` and send one FEEDBACK frame carrying the
updated absolute value (`Stream::SendFeedback`, stream.cpp:631-640). -/
def consumeRun (st : ConsumeState) (tasks : List QTask) :
    List CEvent × ConsumeState :=
  let acc := mbFlush st.hasHandler (idleCheck st (consumeLoop st tasks))
  if st.needFeedback && acc.totalLength != 0 then
    let lc := st.localConsumed + acc.totalLength
    (acc.events ++ [CEvent.feedbackFrame lc],
     { st with localConsumed := lc, parseRpcResponse := acc.parseRpc })
  else
    (acc.events, { st with parseRpcResponse := acc.parseRpc })

/-- Whether a Consume event is the emission of a FEEDBACK frame. -/
def CEvent.isFeedbackFrame : CEvent → Bool
  | .feedbackFrame _ => true
  | _ => false

/-- Total payload bytes handed to the batcher during one Consume run: the
final value of `MessageBatcher::_total_length`. -/
def deliveredTotal (st : ConsumeState) (tasks : List QTask) : Nat :=
  (consumeLoop st tasks).totalLength

/-- The connection/closing fields guarded by `_connect_mutex`. -/
structure CloseState where
  closed : Bool
  connected : Bool
  errorCode : Int
  errorText : String
  deriving DecidableEq, Repr

/-- `Stream::Close` (stream.cpp:688-710): if already closed, return without
touching anything; otherwise latch the error code and reason.  (The
connect-callback side effect on a never-connected stream does not touch
these fields.) -/
def close (st : CloseState) (ec : Int) (reason : String) : CloseState :=
  if st.closed then st
  else { st with closed := true, errorCode := ec, errorText := reason }

/-- Apply a sequence of `Stream::Close(error_code, reason)` calls in
order. -/
def runCloses (st : CloseState) (calls : List (Int × String)) : CloseState :=
  calls.foldl (fun s c => close s c.1 c.2) st

/-- Terminal handler callbacks. -/
inductive HEvent where
  | onFailed (ec : Int) (txt : String)
  | onClosed
  deriving DecidableEq, Repr

/-- The queue-stopped branch of `Stream::Consume` (stream.cpp:577-598):
when a handler is installed, call `on_failed(error_code, error_text)` iff
the latched error code is non-zero, then `on_closed`.  The execution queue
delivers the stop event to its single consumer exactly once, so this branch
runs exactly once per stream. -/
def queueStopEvents (hasHandler : Bool) (st : CloseState) : List HEvent :=
  if hasHandler then
    (if st.errorCode ≠ 0 then [HEvent.onFailed st.errorCode st.errorText]
     else []) ++ [HEvent.onClosed]
  else []

/-- Outcome of the callback form of a wait: an `on_writable` invocation is
scheduled (with its error code, and whether on a freshly started bthread),
or the token parks on the writable wait list. -/
inductive WaitOutcome where
  | invoke (ec : Int) (separateTask : Bool)
  | parked
  deriving DecidableEq, Repr

/-- `Stream::Wait` via `TriggerOnWritable` (stream.cpp:429-470): with flow
control off or credit available the callback fires immediately (on a new
bthread iff `new_thread`); otherwise the token is appended to
`_writable_wait_list`. -/
def streamWaitOnStream (st : FCState) (newThread : Bool) : WaitOutcome :=
  if st.curBufSize ≤ 0 ∨ st.produced < st.remoteConsumed + st.curBufSize then
    .invoke 0 newThread
  else .parked

/-- Callback form of `StreamWait` (stream.cpp:774-796): an unresolvable
stream id still invokes `on_writable` exactly once, with EINVAL, on a
freshly started bthread (`bthread_start_background`); otherwise
`Stream::Wait` runs with `new_thread = true`. -/
def streamWaitCallback (resolved : Option FCState) : WaitOutcome :=
  match resolved with
  | none => .invoke EINVAL true
  | some st => streamWaitOnStream st true

/-- Result of the blocking form of `StreamWait`: an immediate return value,
or a block on `bthread_id_join` until the parked token resolves. -/
inductive BlockingOutcome where
  | immediate (ec : Int)
  | blocked
  deriving DecidableEq, Repr

/-- Blocking form of `StreamWait` (stream.cpp:798-805): an unresolvable
stream id returns EINVAL directly, parking no waiter; otherwise
`Stream::Wait` with `new_thread = false` runs, blocking iff the stream is
full. -/
def streamWaitBlocking (resolved : Option FCState) : BlockingOutcome :=
  match resolved with
  | none => .immediate EINVAL
  | some st =>
    match streamWaitOnStream st false with
    | .invoke ec _ => .immediate ec
    | .parked => .blocked

/-! Helper lemmas about `setRemoteConsumed`. -/

theorem setRC_noop_of_le (flag : Int) (opts : StreamOptions) (st : FCState)
    (v : Nat) (h : v ≤ st.remoteConsumed) :
    setRemoteConsumed flag opts st v = (st, []) := by
  simp [setRemoteConsumed, h]

theorem setRC_produced_eq (flag : Int) (opts : StreamOptions) (st : FCState)
    (v : Nat) :
    (setRemoteConsumed flag opts st v).1.produced = st.produced := by
  by_cases h : v ≤ st.remoteConsumed
  · simp [setRemoteConsumed, h]
  · simp only [setRemoteConsumed, if_neg h]
    repeat' split
    all_goals rfl

theorem setRC_remote_mono (flag : Int) (opts : StreamOptions) (st : FCState)
    (v : Nat) :
    st.remoteConsumed ≤ (setRemoteConsumed flag opts st v).1.remoteConsumed := by
  by_cases h : v ≤ st.remoteConsumed
  · simp [setRemoteConsumed, h]
  · simp only [setRemoteConsumed, if_neg h]
    repeat' split
    all_goals (show st.remoteConsumed ≤ v; omega)

/-- C10: a `StreamWait` on a stream id that `Socket::Address` cannot resolve
invokes `on_writable` exactly once, with EINVAL, on a separately started
task in the callback form, while the blocking form returns EINVAL directly
without parking any waiter. -/
theorem streamWait_unresolved_einval :
    streamWaitCallback none = WaitOutcome.invoke EINVAL true ∧
    streamWaitBlocking none = BlockingOutcome.immediate EINVAL :=
  ⟨rfl, rfl⟩

/-- C3 (code bug): with `cur_buf_size = 0` nothing is tracked at admission,
yet a failed transport write still executes `_produced -= data_length`
(stream.cpp:345) unconditionally, so `produced` underflows from 0 to
`2^64 - 5` instead of remaining 0 as the claim states. -/
theorem appendIfNotFull_cur0_failed_write_underflow :
    (appendIfNotFull 0 5 false ⟨0, 0, 0, 0, []⟩).2.produced = 2 ^ 64 - 5 ∧
    (appendIfNotFull 0 5 false ⟨0, 0, 0, 0, []⟩).2.produced ≠ 0 := by
  constructor
  · rfl
  · decide

/-- C4: `remote_consumed` is non-decreasing along every sequence of
`SetRemoteConsumed` calls, and a call with `new_value ≤ remote_consumed`
returns the whole state (counters, window, aggregate-pressure counter and
wait list) unchanged and wakes nobody, so replaying an old FEEDBACK frame
has no effect. -/
theorem setRemoteConsumed_monotone_and_replay_noop (flag : Int)
    (opts : StreamOptions) (st : FCState) (vs : List Nat) (v : Nat) :
    st.remoteConsumed ≤
      (vs.foldl (fun s u => (setRemoteConsumed flag opts s u).1)
        st).remoteConsumed ∧
    (v ≤ st.remoteConsumed → setRemoteConsumed flag opts st v = (st, [])) := by
  constructor
  · induction vs generalizing st with
    | nil => exact le_refl _
    | cons u us ih =>
      exact le_trans (setRC_remote_mono flag opts st u) (ih _)
  · exact setRC_noop_of_le flag opts st v

/-- Witness for C4 at a concrete input. -/
theorem setRemoteConsumed_monotone_and_replay_noop_witness :
    (5 : Nat) ≤
      (([7, 3, 9] : List Nat).foldl
        (fun s u => (setRemoteConsumed 0 ⟨10, 100⟩ s u).1)
        ⟨20, 5, 50, 0, []⟩).remoteConsumed ∧
    ((3 : Nat) ≤ (5 : Nat) →
      setRemoteConsumed 0 ⟨10, 100⟩ ⟨20, 5, 50, 0, []⟩ 3
        = (⟨20, 5, 50, 0, []⟩, [])) := by
  have h := setRemoteConsumed_monotone_and_replay_noop 0 ⟨10, 100⟩
    ⟨20, 5, 50, 0, []⟩ [7, 3, 9] 3
  exact ⟨h.1, h.2⟩

/-- C2: per-call behaviour of admission in `Stream::AppendIfNotFull` when
the transport write succeeds: with `cur_buf_size = 0` the payload is
admitted and the flow-control counters of the stream (`produced`,
`remote_consumed`, `cur_buf_size`) and the wait list stay untouched; when
`produced ≥ remote_consumed + cur_buf_size` the call returns 1 — surfaced
as EAGAIN by `StreamWrite` — and mutates nothing; otherwise `produced`
grows by exactly the payload length and the payload is admitted. -/
theorem appendIfNotFull_admission_cases (flag : Int) (len : Nat)
    (st : FCState) (errnoVal : Int) :
    (st.curBufSize = 0 →
      (appendIfNotFull flag len true st).1 = 0 ∧
      (appendIfNotFull flag len true st).2.produced = st.produced ∧
      (appendIfNotFull flag len true st).2.remoteConsumed = st.remoteConsumed ∧
      (appendIfNotFull flag len true st).2.curBufSize = st.curBufSize ∧
      (appendIfNotFull flag len true st).2.waitList = st.waitList) ∧
    (0 < st.curBufSize → st.remoteConsumed + st.curBufSize ≤ st.produced →
      appendIfNotFull flag len true st = (1, st) ∧
      streamWrite (some st) flag len true errnoVal = EAGAIN) ∧
    (0 < st.curBufSize → st.produced < st.remoteConsumed + st.curBufSize →
      (appendIfNotFull flag len true st).1 = 0 ∧
      (appendIfNotFull flag len true st).2.produced = st.produced + len ∧
      (appendIfNotFull flag len true st).2.remoteConsumed = st.remoteConsumed ∧
      (appendIfNotFull flag len true st).2.curBufSize = st.curBufSize ∧
      (appendIfNotFull flag len true st).2.waitList = st.waitList) := by
  refine ⟨fun h0 => ?_, fun hpos hfull => ?_, fun hpos hroom => ?_⟩
  · have hnot : ¬ 0 < st.curBufSize := by omega
    simp only [appendIfNotFull, if_neg hnot]
    repeat' split
    all_goals simp_all
  · have h1 : appendIfNotFull flag len true st = (1, st) := by
      simp only [appendIfNotFull, if_pos hpos, if_pos hfull]
    refine ⟨h1, ?_⟩
    simp [streamWrite, h1]
  · have hnfull : ¬ st.remoteConsumed + st.curBufSize ≤ st.produced := by omega
    simp only [appendIfNotFull, if_pos hpos, if_neg hnfull]
    repeat' split
    all_goals simp_all

/-- Witness for C2: the saturated branch at a concrete input. -/
theorem appendIfNotFull_admission_cases_witness :
    appendIfNotFull 0 3 true ⟨10, 0, 10, 0, []⟩ = (1, ⟨10, 0, 10, 0, []⟩) ∧
    streamWrite (some ⟨10, 0, 10, 0, []⟩) 0 3 true 7 = EAGAIN :=
  (appendIfNotFull_admission_cases 0 3 ⟨10, 0, 10, 0, []⟩ 7).2.1
    (by decide) (by decide)

/-! Trace lemmas for the interleaving semantics. -/

theorem run_feedbacks_spec (flag : Int) (opts : StreamOptions) (st : FCState)
    (post : List FCOp) (hpost : ∀ op ∈ post, op.isFeedback = true) :
    (runFC flag opts st post).produced = st.produced ∧
    st.remoteConsumed ≤ (runFC flag opts st post).remoteConsumed := by
  induction post generalizing st with
  | nil => exact ⟨rfl, le_refl _⟩
  | cons op ops ih =>
    have hops : ∀ o ∈ ops, o.isFeedback = true :=
      fun o ho => hpost o (List.mem_cons_of_mem _ ho)
    cases op with
    | write len ok =>
      have hw := hpost (.write len ok) (List.mem_cons_self _ _)
      simp [FCOp.isFeedback] at hw
    | feedback v =>
      have hstep : runFC flag opts st (FCOp.feedback v :: ops)
          = runFC flag opts (setRemoteConsumed flag opts st v).1 ops := rfl
      have h := ih ((setRemoteConsumed flag opts st v).1) hops
      rw [hstep]
      exact ⟨by rw [h.1, setRC_produced_eq],
        le_trans (setRC_remote_mono flag opts st v) h.2⟩

theorem appendIfNotFull_admit_eq (flag : Int) (len : Nat) (ok : Bool)
    (st : FCState) (hcur : 0 < st.curBufSize)
    (hfull : ¬ st.remoteConsumed + st.curBufSize ≤ st.produced) :
    appendIfNotFull flag len ok st =
      if ok then
        (0, if 0 < flag then
              { st with produced := st.produced + len,
                        totalUnconsumed := st.totalUnconsumed + (len : Int) }
            else { st with produced := st.produced + len })
      else (-1, { st with produced := wsub (st.produced + len) len }) := by
  simp only [appendIfNotFull, if_pos hcur, if_neg hfull]

theorem appendIfNotFull_admitted_bound (flag : Int) (len : Nat) (ok : Bool)
    (st : FCState) (hcur : 0 < st.curBufSize)
    (hadm : (appendIfNotFull flag len ok st).1 ≠ 1) :
    (appendIfNotFull flag len ok st).2.produced
      < st.remoteConsumed + st.curBufSize + len ∧
    (appendIfNotFull flag len ok st).2.remoteConsumed = st.remoteConsumed := by
  by_cases hfull : st.remoteConsumed + st.curBufSize ≤ st.produced
  · exfalso
    apply hadm
    simp [appendIfNotFull, if_pos hcur, if_pos hfull]
  · rw [appendIfNotFull_admit_eq flag len ok st hcur hfull]
    have hws : wsub (st.produced + len) len = st.produced := by
      simp [wsub]
    cases ok with
    | true =>
      constructor
      · simp only [if_true]
        split <;> (simp only []; omega)
      · simp only [if_true]
        split <;> rfl
    | false =>
      constructor
      · simp only [Bool.false_eq_true, if_false, hws]
        omega
      · simp only [Bool.false_eq_true, if_false]

/-- C1 (amended): after any interleaving of `Write` and `SetRemoteConsumed`
in which the most recent `Write` was admitted (returned 0 or took the
transport-failure path) on a stream whose window was positive at that
admission, `produced - remote_consumed < B + len` holds at every later
quiescent point, where `B` is the value `cur_buf_size` had when the
admission was checked and `len` the payload length.  The unamended bound
`produced - remote_consumed ≤ cur_buf_size` fails because admission only
requires some positive credit, not `len` bytes of credit; see the
counterexample. -/
theorem write_admission_window_bound (flag : Int) (opts : StreamOptions)
    (st0 : FCState) (pre post : List FCOp) (len : Nat) (ok : Bool)
    (hcur : 0 < (runFC flag opts st0 pre).curBufSize)
    (hadm : (appendIfNotFull flag len ok (runFC flag opts st0 pre)).1 ≠ 1)
    (hpost : ∀ op ∈ post, op.isFeedback = true) :
    (runFC flag opts st0 (pre ++ FCOp.write len ok :: post)).produced -
      (runFC flag opts st0 (pre ++ FCOp.write len ok :: post)).remoteConsumed
      < (runFC flag opts st0 pre).curBufSize + len := by
  have hsplit : runFC flag opts st0 (pre ++ FCOp.write len ok :: post)
      = runFC flag opts
          ((appendIfNotFull flag len ok (runFC flag opts st0 pre)).2) post := by
    rw [runFC, List.foldl_append]
    rfl
  rw [hsplit]
  have hb := appendIfNotFull_admitted_bound flag len ok
    (runFC flag opts st0 pre) hcur hadm
  have hr := run_feedbacks_spec flag opts
    ((appendIfNotFull flag len ok (runFC flag opts st0 pre)).2) post hpost
  omega

/-- C1 counterexample to the claim as stated: a fresh stream with
`cur_buf_size = 10` admits a single 12-byte `Write` (there is credit, just
not 12 bytes of it), after which `produced - remote_consumed = 12 > 10`. -/
theorem write_admission_window_bound_counterexample :
    (appendIfNotFull 0 12 true (⟨0, 0, 10, 0, []⟩ : FCState)).1 ≠ 1 ∧
    ¬ ((runFC 0 ⟨10, 10⟩ ⟨0, 0, 10, 0, []⟩ [FCOp.write 12 true]).produced -
        (runFC 0 ⟨10, 10⟩ ⟨0, 0, 10, 0, []⟩ [FCOp.write 12 true]).remoteConsumed
        ≤ (runFC 0 ⟨10, 10⟩ ⟨0, 0, 10, 0, []⟩
            [FCOp.write 12 true]).curBufSize) := by
  decide

/-- Witness for C1 at a concrete interleaving. -/
theorem write_admission_window_bound_witness :
    (runFC 0 ⟨10, 10⟩ ⟨0, 0, 10, 0, []⟩
        ([] ++ FCOp.write 4 true :: [FCOp.feedback 2])).produced -
      (runFC 0 ⟨10, 10⟩ ⟨0, 0, 10, 0, []⟩
        ([] ++ FCOp.write 4 true :: [FCOp.feedback 2])).remoteConsumed
      < (runFC 0 ⟨10, 10⟩ ⟨0, 0, 10, 0, []⟩ ([] : List FCOp)).curBufSize + 4 :=
  write_admission_window_bound 0 ⟨10, 10⟩ ⟨0, 0, 10, 0, []⟩ []
    [FCOp.feedback 2] 4 true (by decide) (by decide) (by decide)

/-! Characterization of the adaptive-sizing branch of `SetRemoteConsumed`. -/

theorem setRC_curBufSize_eq (flag : Int) (opts : StreamOptions) (st : FCState)
    (v : Nat) (hv : ¬ v ≤ st.remoteConsumed) :
    (setRemoteConsumed flag opts st v).1.curBufSize =
      (if 0 < flag then
        if flag < st.totalUnconsumed - ((v : Int) - (st.remoteConsumed : Int)) then
          (if 0 < opts.minBufSize then opts.minBufSize.toNat
           else st.curBufSize / 2)
        else if v + st.curBufSize ≤ st.produced ∧
            (opts.maxBufSize ≤ 0 ∨ st.curBufSize < opts.maxBufSize.toNat) then
          (if 0 < opts.maxBufSize ∧ opts.maxBufSize.toNat < st.curBufSize * 2 then
            opts.maxBufSize.toNat
           else st.curBufSize * 2)
        else st.curBufSize
      else st.curBufSize) := by
  simp only [setRemoteConsumed, if_neg hv]
  repeat' split
  all_goals rfl

theorem setRC_total_eq (flag : Int) (opts : StreamOptions) (st : FCState)
    (v : Nat) (hv : ¬ v ≤ st.remoteConsumed) :
    (setRemoteConsumed flag opts st v).1.totalUnconsumed =
      if 0 < flag then
        st.totalUnconsumed - ((v : Int) - (st.remoteConsumed : Int))
      else st.totalUnconsumed := by
  simp only [setRemoteConsumed, if_neg hv]
  repeat' split
  all_goals rfl

/-- C5: on an effective `SetRemoteConsumed` with aggregate pressure
adaptation enabled (`socket_max_streams_unconsumed_bytes > 0`): if the
aggregate unconsumed counter exceeds the threshold after the adjustment,
`cur_buf_size` is shrunk to `min_buf_size` (or halved when `min_buf_size`
is 0); otherwise, when `produced ≥ new_value + cur_buf_size` still holds
and `cur_buf_size` has not reached `max_buf_size`, `cur_buf_size` is
doubled and clamped to `max_buf_size`, and in the remaining case it is
unchanged; when the tunable is ≤ 0 neither the window nor the aggregate
counter is ever touched. -/
theorem setRemoteConsumed_adaptive_sizing (flag : Int) (opts : StreamOptions)
    (st : FCState) (v : Nat) (hv : st.remoteConsumed < v)
    (_hmin : 0 ≤ opts.minBufSize) (hmax : 0 < opts.maxBufSize) :
    (0 < flag →
      (flag < st.totalUnconsumed - ((v : Int) - (st.remoteConsumed : Int)) →
        (setRemoteConsumed flag opts st v).1.curBufSize =
          (if 0 < opts.minBufSize then opts.minBufSize.toNat
           else st.curBufSize / 2)) ∧
      (¬ flag < st.totalUnconsumed - ((v : Int) - (st.remoteConsumed : Int)) →
        ((v + st.curBufSize ≤ st.produced ∧
            st.curBufSize < opts.maxBufSize.toNat →
          (setRemoteConsumed flag opts st v).1.curBufSize =
            min (st.curBufSize * 2) opts.maxBufSize.toNat) ∧
         (¬ (v + st.curBufSize ≤ st.produced ∧
              st.curBufSize < opts.maxBufSize.toNat) →
          (setRemoteConsumed flag opts st v).1.curBufSize
            = st.curBufSize)))) ∧
    (flag ≤ 0 →
      (setRemoteConsumed flag opts st v).1.curBufSize = st.curBufSize ∧
      (setRemoteConsumed flag opts st v).1.totalUnconsumed
        = st.totalUnconsumed) := by
  have hnle : ¬ v ≤ st.remoteConsumed := by omega
  have hcur := setRC_curBufSize_eq flag opts st v hnle
  have htot := setRC_total_eq flag opts st v hnle
  refine ⟨fun hf => ⟨fun hshrink => ?_, fun hnoshrink =>
    ⟨fun hgrow => ?_, fun hngrow => ?_⟩⟩, fun hf0 => ?_⟩
  · rw [hcur, if_pos hf, if_pos hshrink]
  · rw [hcur, if_pos hf, if_neg hnoshrink,
      if_pos ⟨hgrow.1, Or.inr hgrow.2⟩]
    by_cases hclamp : opts.maxBufSize.toNat < st.curBufSize * 2
    · rw [if_pos ⟨hmax, hclamp⟩, Nat.min_eq_right (by omega)]
    · rw [if_neg (fun hand => hclamp hand.2), Nat.min_eq_left (by omega)]
  · have hng : ¬ (v + st.curBufSize ≤ st.produced ∧
        (opts.maxBufSize ≤ 0 ∨ st.curBufSize < opts.maxBufSize.toNat)) := by
      rintro ⟨h1, h2 | h3⟩
      · omega
      · exact hngrow ⟨h1, h3⟩
    rw [hcur, if_pos hf, if_neg hnoshrink, if_neg hng]
  · have hnf : ¬ 0 < flag := by omega
    exact ⟨by rw [hcur, if_neg hnf], by rw [htot, if_neg hnf]⟩

/-- Witness for C5: with the tunable set to 1, `min_buf_size = 0` and an
aggregate counter above the threshold, the window is halved from 10 to 5. -/
theorem setRemoteConsumed_adaptive_sizing_witness :
    (setRemoteConsumed 1 ⟨0, 10⟩ ⟨20, 0, 10, 50, []⟩ 1).1.curBufSize = 5 := by
  have h := (setRemoteConsumed_adaptive_sizing 1 ⟨0, 10⟩ ⟨20, 0, 10, 50, []⟩ 1
    (by decide) (by decide) (by decide)).1 (by decide)
  simpa using h.1 (by decide)

/-! Window bounds from creation (C6). -/

theorem createdMin_le_max (opts : StreamOptions)
    (hmax : 0 < opts.maxBufSize) :
    createdMinBufSize opts ≤ opts.maxBufSize := by
  unfold createdMinBufSize
  split <;> omega

theorem write_curBufSize_eq (flag : Int) (len : Nat) (ok : Bool)
    (st : FCState) :
    (appendIfNotFull flag len ok st).2.curBufSize = st.curBufSize := by
  simp only [appendIfNotFull]
  repeat' split
  all_goals rfl

theorem curBounds_step (flag : Int) (opts : StreamOptions) (st : FCState)
    (op : FCOp) (hmax : 0 < opts.maxBufSize)
    (hminle : opts.minBufSize ≤ opts.maxBufSize)
    (h1 : opts.minBufSize ≤ (st.curBufSize : Int))
    (h2 : (st.curBufSize : Int) ≤ opts.maxBufSize) :
    opts.minBufSize ≤ ((stepFC flag opts st op).curBufSize : Int) ∧
    ((stepFC flag opts st op).curBufSize : Int) ≤ opts.maxBufSize := by
  cases op with
  | write len ok =>
    have heq : (stepFC flag opts st (.write len ok)).curBufSize
        = st.curBufSize := write_curBufSize_eq flag len ok st
    rw [heq]
    exact ⟨h1, h2⟩
  | feedback v =>
    by_cases hv : v ≤ st.remoteConsumed
    · have heq : stepFC flag opts st (.feedback v) = st := by
        simp [stepFC, setRC_noop_of_le flag opts st v hv]
      rw [heq]
      exact ⟨h1, h2⟩
    · have hc := setRC_curBufSize_eq flag opts st v hv
      have heq : (stepFC flag opts st (.feedback v)).curBufSize
          = (setRemoteConsumed flag opts st v).1.curBufSize := rfl
      rw [heq, hc]
      repeat' split
      all_goals omega

theorem curBounds_run (flag : Int) (opts : StreamOptions) (st0 : FCState)
    (ops : List FCOp) (hmax : 0 < opts.maxBufSize)
    (hminle : opts.minBufSize ≤ opts.maxBufSize)
    (h1 : opts.minBufSize ≤ (st0.curBufSize : Int))
    (h2 : (st0.curBufSize : Int) ≤ opts.maxBufSize) :
    opts.minBufSize ≤ ((runFC flag opts st0 ops).curBufSize : Int) ∧
    ((runFC flag opts st0 ops).curBufSize : Int) ≤ opts.maxBufSize := by
  induction ops generalizing st0 with
  | nil => exact ⟨h1, h2⟩
  | cons op rest ih =>
    have hstep := curBounds_step flag opts st0 op hmax hminle h1 h2
    exact ih (stepFC flag opts st0 op) hstep.1 hstep.2

theorem initCur_bounds (flag : Int) (opts : StreamOptions)
    (hmax : 0 < opts.maxBufSize) :
    createdMinBufSize opts ≤ (initCurBufSize flag opts : Int) ∧
    (initCurBufSize flag opts : Int) ≤ opts.maxBufSize := by
  have hle := createdMin_le_max opts hmax
  simp only [initCurBufSize]
  repeat' split
  all_goals omega

/-- C6 (amended): for a stream created with `max_buf_size > 0`, the claim
holds: `cur_buf_size` stays within `[min_buf_size, max_buf_size]` (with
`min_buf_size` as stored after creation) at every point, in particular
after every window adjustment; before any adjustment it equals
`max_buf_size`, or the stored `min_buf_size` when the aggregate-pressure
flag is enabled at creation; and when `min_buf_size > max_buf_size` at
creation, `min_buf_size` is silently reset to 0.  With `max_buf_size ≤ 0`
(a legal configuration meaning "no limit") the interval `[min, max]` part
of the claim fails; see the counterexample. -/
theorem window_bounds_from_create (flag : Int) (opts : StreamOptions)
    (total0 : Int) (ops : List FCOp) (hmax : 0 < opts.maxBufSize) :
    (initCurBufSize flag opts = opts.maxBufSize.toNat ∨
      (0 < flag ∧
        initCurBufSize flag opts = (createdMinBufSize opts).toNat)) ∧
    ((createdOptions opts).minBufSize ≤
        ((runFC flag (createdOptions opts)
          (createFCState flag opts total0) ops).curBufSize : Int) ∧
      ((runFC flag (createdOptions opts)
          (createFCState flag opts total0) ops).curBufSize : Int)
        ≤ opts.maxBufSize) ∧
    (opts.maxBufSize < opts.minBufSize → createdMinBufSize opts = 0) := by
  refine ⟨?_, ?_, fun hlt => ?_⟩
  · by_cases h : 0 < flag ∧ 0 < createdMinBufSize opts
    · exact Or.inr ⟨h.1, by simp only [initCurBufSize, if_pos h]⟩
    · exact Or.inl (by simp only [initCurBufSize, if_neg h, if_pos hmax])
  · have hb := initCur_bounds flag opts hmax
    have hmle : (createdOptions opts).minBufSize ≤ (createdOptions opts).maxBufSize := by
      have := createdMin_le_max opts hmax
      simpa [createdOptions] using this
    have hrun := curBounds_run flag (createdOptions opts)
      (createFCState flag opts total0) ops (by simpa [createdOptions] using hmax)
      hmle (by simpa [createdOptions, createFCState] using hb.1)
        (by simpa [createdOptions, createFCState] using hb.2)
    exact ⟨by simpa [createdOptions] using hrun.1,
      by simpa [createdOptions] using hrun.2⟩
  · have hand : 0 < opts.maxBufSize ∧ opts.maxBufSize < opts.minBufSize :=
      ⟨hmax, hlt⟩
    simp only [createdMinBufSize, if_pos hand]

/-- C6 counterexample to the claim as stated, over every stream: with
`max_buf_size = 0` ("no limit"), `min_buf_size = 5` and the
aggregate-pressure flag enabled, creation sets `cur_buf_size = 5` and the
first (shrinking) adjustment keeps it at 5, which does not lie in the
interval `[min_buf_size, max_buf_size] = [5, 0]`. -/
theorem window_bounds_counterexample :
    ¬ ((createdOptions ⟨5, 0⟩).minBufSize ≤
        ((runFC 1 (createdOptions ⟨5, 0⟩) (createFCState 1 ⟨5, 0⟩ 10)
          [FCOp.feedback 1]).curBufSize : Int) ∧
      ((runFC 1 (createdOptions ⟨5, 0⟩) (createFCState 1 ⟨5, 0⟩ 10)
          [FCOp.feedback 1]).curBufSize : Int)
        ≤ (⟨5, 0⟩ : StreamOptions).maxBufSize) := by
  decide

/-- Witness for C6 at a concrete configuration. -/
theorem window_bounds_from_create_witness :
    (initCurBufSize 0 ⟨2, 10⟩ = (10 : Int).toNat ∨
      ((0 : Int) < 0 ∧ initCurBufSize 0 ⟨2, 10⟩
        = (createdMinBufSize ⟨2, 10⟩).toNat)) ∧
    ((createdOptions ⟨2, 10⟩).minBufSize ≤
        ((runFC 0 (createdOptions ⟨2, 10⟩) (createFCState 0 ⟨2, 10⟩ 0)
          [FCOp.feedback 1]).curBufSize : Int) ∧
      ((runFC 0 (createdOptions ⟨2, 10⟩) (createFCState 0 ⟨2, 10⟩ 0)
          [FCOp.feedback 1]).curBufSize : Int)
        ≤ (⟨2, 10⟩ : StreamOptions).maxBufSize) ∧
    ((10 : Int) < 2 → createdMinBufSize ⟨2, 10⟩ = 0) :=
  window_bounds_from_create 0 ⟨2, 10⟩ 0 [FCOp.feedback 1] (by decide)

/-! Segmentation and reassembly (C7). -/

theorem receiveFrames_append (p : Option (List Nat)) (fs gs : List Frame) :
    receiveFrames p (fs ++ gs) =
      ((receiveFrames (receiveFrames p fs).1 gs).1,
        (receiveFrames p fs).2 ++ (receiveFrames (receiveFrames p fs).1 gs).2) := by
  induction fs generalizing p with
  | nil => simp [receiveFrames]
  | cons f fs ih =>
    simp only [List.cons_append, receiveFrames, List.append_eq]
    rw [ih]
    simp [List.append_assoc]

theorem receive_cutLoop (m : Nat) (hm : 1 ≤ m) :
    ∀ (fuel : Nat) (data p : List Nat), data.length ≤ fuel →
      receiveFrames (some p) (cutLoop m fuel data) = (none, [p ++ data]) := by
  intro fuel
  induction fuel with
  | zero =>
    intro data p h
    simp [cutLoop, receiveFrames, onDataFrame]
  | succ fuel ih =>
    intro data p h
    simp only [cutLoop]
    by_cases hrest : (data.drop m).isEmpty
    · rw [if_pos hrest]
      have hlen : data.length ≤ m := by
        have := List.isEmpty_iff.mp hrest
        have hdrop := List.length_drop m data
        rw [this] at hdrop
        simp at hdrop
        omega
      have htk : data.take m = data := List.take_of_length_le hlen
      simp [receiveFrames, onDataFrame, htk]
    · rw [if_neg hrest]
      have hne : data.drop m ≠ [] := fun hc => hrest (by simp [hc])
      have hdl : (data.drop m).length = data.length - m := List.length_drop m data
      have hml : m < data.length := by
        by_contra hc
        exact hne (List.drop_eq_nil_of_le (by omega))
      have ihx := ih (data.drop m) (p ++ data.take m) (by omega)
      simp only [receiveFrames]
      simp [onDataFrame, ihx, List.append_assoc, List.take_append_drop]

theorem receive_oneBuffer (m : Nat) (hm : 1 ≤ m) (data : List Nat) :
    receiveFrames none
      (if m < data.length then cutLoop m data.length data
       else [⟨data, false⟩]) = (none, [data]) := by
  by_cases hlen : m < data.length
  · rw [if_pos hlen]
    cases hd : data.length with
    | zero => omega
    | succ n =>
      simp only [cutLoop]
      by_cases hrest : (data.drop m).isEmpty
      · exfalso
        have := List.isEmpty_iff.mp hrest
        have hdrop := List.length_drop m data
        rw [this] at hdrop
        simp at hdrop
        omega
      · rw [if_neg hrest]
        have hrec := receive_cutLoop m hm n (data.drop m) (data.take m)
          (by have := List.length_drop m data; omega)
        simp only [receiveFrames]
        simp [onDataFrame, hrec, List.take_append_drop]
  · rw [if_neg hlen]
    simp [receiveFrames, onDataFrame]

theorem receive_cutMessage (m : Nat) (hm : 1 ≤ m) (bufs : List (List Nat)) :
    receiveFrames none (cutMessage m bufs) = (none, bufs) := by
  induction bufs with
  | nil => simp [cutMessage, receiveFrames]
  | cons b bs ih =>
    have hsplit : cutMessage m (b :: bs)
        = (if m < b.length then cutLoop m b.length b else [⟨b, false⟩])
          ++ cutMessage m bs := by
      simp [cutMessage]
    rw [hsplit, receiveFrames_append, receive_oneBuffer m hm b]
    simp [ih]

/-- C7: with a positive segment limit, segmentation cuts each buffer longer
than the limit into limit-sized pieces carrying `has_continuation=true`
except the final piece (`has_continuation=false`), and reassembling every
continuation run via `OnReceived` delivers exactly the byte sequences that
were written, one message per buffer; concretely, with limit 4 the buffer
"abcdefghij" yields frames ("abcd",cont), ("efgh",cont), ("ij",last) and
the receiver observes the single payload "abcdefghij". -/
theorem segmentation_reassembly (m : Nat) (bufs : List (List Nat))
    (hm : 1 ≤ m) :
    receiveFrames none (cutMessage m bufs) = (none, bufs) ∧
    cutMessage 4 [[97, 98, 99, 100, 101, 102, 103, 104, 105, 106]] =
      [⟨[97, 98, 99, 100], true⟩, ⟨[101, 102, 103, 104], true⟩,
        ⟨[105, 106], false⟩] ∧
    (receiveFrames none
      (cutMessage 4 [[97, 98, 99, 100, 101, 102, 103, 104, 105, 106]])).2 =
      [[97, 98, 99, 100, 101, 102, 103, 104, 105, 106]] :=
  ⟨receive_cutMessage m hm bufs, by decide, by decide⟩

/-- Witness for C7 at the concrete segmentation scenario of the spec. -/
theorem segmentation_reassembly_witness :
    receiveFrames none
      (cutMessage 4 [[97, 98, 99, 100, 101, 102, 103, 104, 105, 106]]) =
      (none, [[97, 98, 99, 100, 101, 102, 103, 104, 105, 106]]) :=
  (segmentation_reassembly 4
    [[97, 98, 99, 100, 101, 102, 103, 104, 105, 106]] (by decide)).1

/-! Consume feedback accounting (C8). -/

theorem mbFlush_total (h : Bool) (acc : BatchAcc) :
    (mbFlush h acc).totalLength = acc.totalLength := by
  unfold mbFlush
  split <;> rfl

theorem mbFlush_noFeedback (h : Bool) (acc : BatchAcc) :
    (mbFlush h acc).events.filter CEvent.isFeedbackFrame
      = acc.events.filter CEvent.isFeedbackFrame := by
  unfold mbFlush
  split
  · rfl
  · cases h <;> simp [List.filter_append, CEvent.isFeedbackFrame]

theorem mbPush_noFeedback (h : Bool) (cap : Nat) (m : List Nat)
    (acc : BatchAcc) :
    (mbPush h cap m acc).events.filter CEvent.isFeedbackFrame
      = acc.events.filter CEvent.isFeedbackFrame := by
  simp only [mbPush]
  split
  · exact mbFlush_noFeedback h acc
  · rfl

theorem consumeStep_noFeedback (st : ConsumeState) (acc : BatchAcc)
    (t : QTask) :
    (consumeStep st acc t).events.filter CEvent.isFeedbackFrame
      = acc.events.filter CEvent.isFeedbackFrame := by
  cases t with
  | timeout => rfl
  | data m =>
    simp only [consumeStep]
    split
    · simp [List.filter_append, CEvent.isFeedbackFrame]
    · exact mbPush_noFeedback st.hasHandler st.messagesInBatch m acc

theorem consumeLoop_noFeedback (st : ConsumeState) (tasks : List QTask)
    (acc : BatchAcc) :
    ((tasks.foldl (consumeStep st) acc).events.filter CEvent.isFeedbackFrame)
      = acc.events.filter CEvent.isFeedbackFrame := by
  induction tasks generalizing acc with
  | nil => rfl
  | cons t ts ih =>
    rw [List.foldl_cons, ih, consumeStep_noFeedback]

theorem idleCheck_total (st : ConsumeState) (acc : BatchAcc) :
    (idleCheck st acc).totalLength = acc.totalLength := by
  unfold idleCheck
  split <;> rfl

theorem idleCheck_noFeedback (st : ConsumeState) (acc : BatchAcc) :
    (idleCheck st acc).events.filter CEvent.isFeedbackFrame
      = acc.events.filter CEvent.isFeedbackFrame := by
  unfold idleCheck
  split
  · simp [List.filter_append, CEvent.isFeedbackFrame]
  · rfl

/-- C8 (amended): when the peer requested feedback and a Consume run
delivers a non-zero payload byte total, the consumer adds that total to
`local_consumed` and emits exactly one FEEDBACK frame, carrying the updated
absolute `local_consumed`; a run delivering zero bytes, or one on a stream
whose peer did not request feedback, leaves `local_consumed` untouched and
emits no feedback.  (The unamended claim also updates `local_consumed` when
`need_feedback` is false; the code does not — see the counterexample.) -/
theorem consume_feedback_accounting (st : ConsumeState) (tasks : List QTask) :
    (st.needFeedback = true → deliveredTotal st tasks ≠ 0 →
      (consumeRun st tasks).2.localConsumed
          = st.localConsumed + deliveredTotal st tasks ∧
      (consumeRun st tasks).1.filter CEvent.isFeedbackFrame
        = [CEvent.feedbackFrame
            (st.localConsumed + deliveredTotal st tasks)]) ∧
    (st.needFeedback = false ∨ deliveredTotal st tasks = 0 →
      (consumeRun st tasks).2.localConsumed = st.localConsumed ∧
      (consumeRun st tasks).1.filter CEvent.isFeedbackFrame = []) := by
  have htot : (mbFlush st.hasHandler
      (idleCheck st (consumeLoop st tasks))).totalLength
      = deliveredTotal st tasks := by
    rw [mbFlush_total, idleCheck_total]
    rfl
  have hflt : (mbFlush st.hasHandler
      (idleCheck st (consumeLoop st tasks))).events.filter
        CEvent.isFeedbackFrame = [] := by
    rw [mbFlush_noFeedback, idleCheck_noFeedback]
    exact consumeLoop_noFeedback st tasks _
  constructor
  · intro hnf hT
    have hc : (st.needFeedback && (mbFlush st.hasHandler
        (idleCheck st (consumeLoop st tasks))).totalLength != 0) = true := by
      simp [hnf, htot, hT]
    simp only [consumeRun]
    rw [if_pos hc]
    refine ⟨by simp [htot], ?_⟩
    rw [List.filter_append, hflt, htot]
    simp [CEvent.isFeedbackFrame]
  · intro hcase
    have hc : (st.needFeedback && (mbFlush st.hasHandler
        (idleCheck st (consumeLoop st tasks))).totalLength != 0) = false := by
      rcases hcase with h | h
      · simp [h]
      · simp [htot, h]
    simp only [consumeRun]
    rw [hc]
    simp only [Bool.false_eq_true, if_false]
    exact ⟨by simp, hflt⟩

/-- C8 counterexample to the claim as stated: a Consume run delivering 3
payload bytes on a stream whose peer did not request feedback leaves
`local_consumed` at 0, because the source adds to `_local_consumed` only
under `need_feedback()` (stream.cpp:623-626), while the claim has every
non-zero batch update it. -/
theorem consume_localConsumed_counterexample :
    deliveredTotal ⟨0, false, false, true, 128⟩ [QTask.data [1, 2, 3]] = 3 ∧
    (consumeRun ⟨0, false, false, true, 128⟩
      [QTask.data [1, 2, 3]]).2.localConsumed ≠ 0 + 3 := by
  decide

/-- Witness for C8 at a concrete batch. -/
theorem consume_feedback_accounting_witness :
    (consumeRun ⟨10, false, true, true, 128⟩
        [QTask.data [1, 2, 3]]).2.localConsumed
      = 10 + deliveredTotal ⟨10, false, true, true, 128⟩
          [QTask.data [1, 2, 3]] ∧
    (consumeRun ⟨10, false, true, true, 128⟩
        [QTask.data [1, 2, 3]]).1.filter CEvent.isFeedbackFrame
      = [CEvent.feedbackFrame (10 + deliveredTotal ⟨10, false, true, true, 128⟩
          [QTask.data [1, 2, 3]])] :=
  (consume_feedback_accounting ⟨10, false, true, true, 128⟩
    [QTask.data [1, 2, 3]]).1 rfl (by decide)

/-! Close idempotence (C9). -/

theorem close_of_closed (st : CloseState) (h : st.closed = true) (ec : Int)
    (r : String) : close st ec r = st := by
  simp [close, h]

theorem runCloses_closed (st : CloseState) (h : st.closed = true)
    (calls : List (Int × String)) : runCloses st calls = st := by
  induction calls with
  | nil => rfl
  | cons c cs ih =>
    unfold runCloses at ih ⊢
    rw [List.foldl_cons, close_of_closed st h]
    exact ih

/-- C9: Close is idempotent: over any nonempty sequence of
`Close(error_code, reason)` calls on a not-yet-closed stream, the latched
error code and reason are those of the first call, and the queue-stop
branch of Consume — which the execution queue runs exactly once — invokes
`on_failed(error_code, error_text)` iff the latched code is non-zero,
followed by exactly one `on_closed`. -/
theorem close_idempotent_first_error_wins (st0 : CloseState)
    (calls : List (Int × String)) (h0 : st0.closed = false)
    (hne : calls ≠ []) :
    (runCloses st0 calls).errorCode = calls.headI.1 ∧
    (runCloses st0 calls).errorText = calls.headI.2 ∧
    queueStopEvents true (runCloses st0 calls)
      = (if calls.headI.1 ≠ 0 then
          [HEvent.onFailed calls.headI.1 calls.headI.2] else [])
        ++ [HEvent.onClosed] ∧
    (queueStopEvents true (runCloses st0 calls)).count HEvent.onClosed = 1 := by
  cases calls with
  | nil => exact absurd rfl hne
  | cons c cs =>
    have h1 : close st0 c.1 c.2
        = { st0 with closed := true, errorCode := c.1, errorText := c.2 } := by
      simp [close, h0]
    have hrun : runCloses st0 (c :: cs)
        = { st0 with closed := true, errorCode := c.1, errorText := c.2 } := by
      unfold runCloses
      rw [List.foldl_cons, h1]
      exact runCloses_closed _ rfl cs
    rw [hrun]
    refine ⟨rfl, rfl, by simp [queueStopEvents], ?_⟩
    unfold queueStopEvents
    by_cases hc : c.1 = 0
    · simp [hc]
    · simp [hc, List.count_cons, beq_iff_eq]

/-- Witness for C9 at a concrete call sequence: an RST-induced close
followed by a local close. -/
theorem close_idempotent_first_error_wins_witness :
    (runCloses ⟨false, false, 0, ""⟩
        [(104, "Received RST frame"), (0, "Local close")]).errorCode = 104 ∧
    (runCloses ⟨false, false, 0, ""⟩
        [(104, "Received RST frame"), (0, "Local close")]).errorText
      = "Received RST frame" ∧
    queueStopEvents true (runCloses ⟨false, false, 0, ""⟩
        [(104, "Received RST frame"), (0, "Local close")])
      = [HEvent.onFailed 104 "Received RST frame", HEvent.onClosed] ∧
    (queueStopEvents true (runCloses ⟨false, false, 0, ""⟩
        [(104, "Received RST frame"), (0, "Local close")])).count
          HEvent.onClosed = 1 := by
  have h := close_idempotent_first_error_wins ⟨false, false, 0, ""⟩
    [(104, "Received RST frame"), (0, "Local close")] rfl (by simp)
  simpa using h

end BrpcStream
